import Mathlib

/-!
Verification of the result-retrieval and verdict protocol of
`sonic_warmreboot_blocker_checker.py`.

The embedding works on `List Char` (Python `str`).  JSON documents are
modelled by the inductive type `Json`; `parseJson` models `json.loads`
(strict mode), with the one restriction that numbers are modelled as
integers only: a fractional or exponent part makes the parse fail, since
Python floats are out of scope for every property considered here.
Braces inside string literals are written with the escapes x7b / x7d.
-/

namespace WarmCheck

/-- Whitespace characters skipped by Python's JSON decoder. -/
def isJsonWs (c : Char) : Bool :=
  c = ' ' || c = '\t' || c = '\n' || c = '\r'

/-- Whitespace characters removed by Python's `str.strip()`. -/
def isPyWs (c : Char) : Bool :=
  c = ' ' || c = '\t' || c = '\n' || c = '\r' || c = '\x0b' || c = '\x0c'

/-- The values `json.loads` can produce (numbers restricted to integers). -/
inductive Json where
  | null : Json
  | bool (b : Bool) : Json
  | num (n : Int) : Json
  | str (s : List Char) : Json
  | arr (elems : List Json) : Json
  | obj (fields : List (List Char × Json)) : Json

mutual

/-- Decidable equality on `Json` (the nested inductive blocks deriving). -/
def decEqJson : (a b : Json) → Decidable (a = b)
  | .null, .null => isTrue rfl
  | .bool a, .bool b =>
    match decEq a b with
    | isTrue h => isTrue (by rw [h])
    | isFalse h => isFalse (fun hh => by cases hh; exact h rfl)
  | .num a, .num b =>
    match decEq a b with
    | isTrue h => isTrue (by rw [h])
    | isFalse h => isFalse (fun hh => by cases hh; exact h rfl)
  | .str a, .str b =>
    match decEq a b with
    | isTrue h => isTrue (by rw [h])
    | isFalse h => isFalse (fun hh => by cases hh; exact h rfl)
  | .arr a, .arr b =>
    match decEqJsonList a b with
    | isTrue h => isTrue (by rw [h])
    | isFalse h => isFalse (fun hh => by cases hh; exact h rfl)
  | .obj a, .obj b =>
    match decEqJsonFields a b with
    | isTrue h => isTrue (by rw [h])
    | isFalse h => isFalse (fun hh => by cases hh; exact h rfl)
  | .null, .bool _ => isFalse (by intro h; exact Json.noConfusion h)
  | .null, .num _ => isFalse (by intro h; exact Json.noConfusion h)
  | .null, .str _ => isFalse (by intro h; exact Json.noConfusion h)
  | .null, .arr _ => isFalse (by intro h; exact Json.noConfusion h)
  | .null, .obj _ => isFalse (by intro h; exact Json.noConfusion h)
  | .bool _, .null => isFalse (by intro h; exact Json.noConfusion h)
  | .bool _, .num _ => isFalse (by intro h; exact Json.noConfusion h)
  | .bool _, .str _ => isFalse (by intro h; exact Json.noConfusion h)
  | .bool _, .arr _ => isFalse (by intro h; exact Json.noConfusion h)
  | .bool _, .obj _ => isFalse (by intro h; exact Json.noConfusion h)
  | .num _, .null => isFalse (by intro h; exact Json.noConfusion h)
  | .num _, .bool _ => isFalse (by intro h; exact Json.noConfusion h)
  | .num _, .str _ => isFalse (by intro h; exact Json.noConfusion h)
  | .num _, .arr _ => isFalse (by intro h; exact Json.noConfusion h)
  | .num _, .obj _ => isFalse (by intro h; exact Json.noConfusion h)
  | .str _, .null => isFalse (by intro h; exact Json.noConfusion h)
  | .str _, .bool _ => isFalse (by intro h; exact Json.noConfusion h)
  | .str _, .num _ => isFalse (by intro h; exact Json.noConfusion h)
  | .str _, .arr _ => isFalse (by intro h; exact Json.noConfusion h)
  | .str _, .obj _ => isFalse (by intro h; exact Json.noConfusion h)
  | .arr _, .null => isFalse (by intro h; exact Json.noConfusion h)
  | .arr _, .bool _ => isFalse (by intro h; exact Json.noConfusion h)
  | .arr _, .num _ => isFalse (by intro h; exact Json.noConfusion h)
  | .arr _, .str _ => isFalse (by intro h; exact Json.noConfusion h)
  | .arr _, .obj _ => isFalse (by intro h; exact Json.noConfusion h)
  | .obj _, .null => isFalse (by intro h; exact Json.noConfusion h)
  | .obj _, .bool _ => isFalse (by intro h; exact Json.noConfusion h)
  | .obj _, .num _ => isFalse (by intro h; exact Json.noConfusion h)
  | .obj _, .str _ => isFalse (by intro h; exact Json.noConfusion h)
  | .obj _, .arr _ => isFalse (by intro h; exact Json.noConfusion h)

/-- Decidable equality on lists of `Json` values. -/
def decEqJsonList : (a b : List Json) → Decidable (a = b)
  | [], [] => isTrue rfl
  | [], _ :: _ => isFalse (by intro h; exact List.noConfusion h)
  | _ :: _, [] => isFalse (by intro h; exact List.noConfusion h)
  | x :: xs, y :: ys =>
    match decEqJson x y with
    | isTrue h1 =>
      match decEqJsonList xs ys with
      | isTrue h2 => isTrue (by rw [h1, h2])
      | isFalse h2 => isFalse (fun hh => by cases hh; exact h2 rfl)
    | isFalse h1 => isFalse (fun hh => by cases hh; exact h1 rfl)

/-- Decidable equality on lists of `Json` object members. -/
def decEqJsonFields : (a b : List (List Char × Json)) → Decidable (a = b)
  | [], [] => isTrue rfl
  | [], _ :: _ => isFalse (by intro h; exact List.noConfusion h)
  | _ :: _, [] => isFalse (by intro h; exact List.noConfusion h)
  | (k, v) :: xs, (k2, v2) :: ys =>
    match decEq k k2 with
    | isTrue hk =>
      match decEqJson v v2 with
      | isTrue h1 =>
        match decEqJsonFields xs ys with
        | isTrue h2 => isTrue (by rw [hk, h1, h2])
        | isFalse h2 => isFalse (fun hh => by cases hh; exact h2 rfl)
      | isFalse h1 => isFalse (fun hh => by cases hh; exact h1 rfl)
    | isFalse hk => isFalse (fun hh => by cases hh; exact hk rfl)

end

instance : DecidableEq Json := decEqJson

/-- Value of a hexadecimal digit, used for the JSON string escape u XXXX. -/
def hexVal (c : Char) : Option Nat :=
  if '0' ≤ c ∧ c ≤ '9' then some (c.toNat - 48)
  else if 'a' ≤ c ∧ c ≤ 'f' then some (c.toNat - 87)
  else if 'A' ≤ c ∧ c ≤ 'F' then some (c.toNat - 55)
  else none

/-- Single-character JSON string escapes. -/
def escChar (c : Char) : Option Char :=
  if c = '"' then some '"'
  else if c = '\\' then some '\\'
  else if c = '/' then some '/'
  else if c = 'b' then some '\x08'
  else if c = 'f' then some '\x0c'
  else if c = 'n' then some '\n'
  else if c = 'r' then some '\r'
  else if c = 't' then some '\t'
  else none

/-- Body of a JSON string after the opening quote: returns the decoded
content and the input remaining after the closing quote.  Raw control
characters are rejected, as in Python's strict decoder. -/
def parseStringBody : List Char → Option (List Char × List Char)
  | [] => none
  | '"' :: rest => some ([], rest)
  | '\\' :: 'u' :: h1 :: h2 :: h3 :: h4 :: rest =>
    match hexVal h1, hexVal h2, hexVal h3, hexVal h4 with
    | some a, some b, some c, some d =>
      (parseStringBody rest).map
        (fun p => (Char.ofNat (((a * 16 + b) * 16 + c) * 16 + d) :: p.1, p.2))
    | _, _, _, _ => none
  | '\\' :: e :: rest =>
    match escChar e with
    | some c => (parseStringBody rest).map (fun p => (c :: p.1, p.2))
    | none => none
  | c :: rest =>
    if c.toNat < 32 then none
    else (parseStringBody rest).map (fun p => (c :: p.1, p.2))

/-- Numeric value of a list of decimal digits. -/
def digitsVal (ds : List Char) : Nat :=
  ds.foldl (fun a c => a * 10 + (c.toNat - 48)) 0

/-- Head of the input is a decimal digit. -/
def headIsDigit : List Char → Bool
  | [] => false
  | c :: _ => c.isDigit

/-- Integer part of a JSON number (leading zeros rejected, as in JSON). -/
def parseIntPart : List Char → Option (Nat × List Char)
  | [] => none
  | '0' :: r => if headIsDigit r then none else some (0, r)
  | c :: r =>
    if c.isDigit then
      some (digitsVal (c :: r.takeWhile Char.isDigit), r.dropWhile Char.isDigit)
    else none

/-- Reject a fractional or exponent part: such numbers are Python floats,
which this model does not cover (the parse fails instead). -/
def floatGuard (rest : List Char) (v : Json) : Option (Json × List Char) :=
  match rest with
  | '.' :: _ => none
  | 'e' :: _ => none
  | 'E' :: _ => none
  | _ => some (v, rest)

/-- A JSON number (integer), with optional leading minus sign. -/
def parseNumber (s : List Char) : Option (Json × List Char) :=
  match s with
  | '-' :: r =>
    match parseIntPart r with
    | some (n, rest) => floatGuard rest (Json.num (-(n : Int)))
    | none => none
  | _ =>
    match parseIntPart s with
    | some (n, rest) => floatGuard rest (Json.num (n : Int))
    | none => none

mutual

/-- A JSON value, preceded by optional whitespace; returns the value and
the unconsumed remainder of the input. -/
def parseVal : Nat → List Char → Option (Json × List Char)
  | 0, _ => none
  | fuel + 1, s =>
    match s.dropWhile isJsonWs with
    | [] => none
    | c :: rest =>
      if c = '{' then
        match rest.dropWhile isJsonWs with
        | '}' :: r2 => some (Json.obj [], r2)
        | _ =>
          match parseMembers fuel (rest.dropWhile isJsonWs) with
          | some (fs, r2) => some (Json.obj fs, r2)
          | none => none
      else if c = '[' then
        match rest.dropWhile isJsonWs with
        | ']' :: r2 => some (Json.arr [], r2)
        | _ =>
          match parseElems fuel rest with
          | some (es, r2) => some (Json.arr es, r2)
          | none => none
      else if c = '"' then
        match parseStringBody rest with
        | some (cs, r2) => some (Json.str cs, r2)
        | none => none
      else if c = 'n' then
        match rest with
        | 'u' :: 'l' :: 'l' :: r2 => some (Json.null, r2)
        | _ => none
      else if c = 't' then
        match rest with
        | 'r' :: 'u' :: 'e' :: r2 => some (Json.bool true, r2)
        | _ => none
      else if c = 'f' then
        match rest with
        | 'a' :: 'l' :: 's' :: 'e' :: r2 => some (Json.bool false, r2)
        | _ => none
      else if c = '-' || c.isDigit then parseNumber (c :: rest)
      else none

/-- Comma-separated JSON array elements up to the closing bracket. -/
def parseElems : Nat → List Char → Option (List Json × List Char)
  | 0, _ => none
  | fuel + 1, s =>
    match parseVal fuel s with
    | some (v, r) =>
      match r.dropWhile isJsonWs with
      | ',' :: r2 => (parseElems fuel r2).map (fun p => (v :: p.1, p.2))
      | ']' :: r2 => some ([v], r2)
      | _ => none
    | none => none

/-- Comma-separated JSON object members up to the closing brace. -/
def parseMembers : Nat → List Char → Option (List (List Char × Json) × List Char)
  | 0, _ => none
  | fuel + 1, s =>
    match s.dropWhile isJsonWs with
    | '"' :: r =>
      match parseStringBody r with
      | some (key, r1) =>
        match r1.dropWhile isJsonWs with
        | ':' :: r2 =>
          match parseVal fuel r2 with
          | some (v, r3) =>
            match r3.dropWhile isJsonWs with
            | ',' :: r4 => (parseMembers fuel r4).map (fun p => ((key, v) :: p.1, p.2))
            | '}' :: r4 => some ([(key, v)], r4)
            | _ => none
          | none => none
        | _ => none
      | none => none
    | _ => none

end

/-- Model of `json.loads`: a single JSON document, with only whitespace
allowed around it. -/
def parseJson (s : List Char) : Option Json :=
  match parseVal (s.length + 1) s with
  | some (v, rest) => if (rest.dropWhile isJsonWs).isEmpty then some v else none
  | none => none

/-! ### Python string primitives used by the checker -/

/-- `listStartsWith pat s` decides whether `pat` begins `s`. -/
def listStartsWith : List Char → List Char → Bool
  | [], _ => true
  | _ :: _, [] => false
  | p :: ps, c :: cs => p = c && listStartsWith ps cs

/-- Python's `pat in s` substring test. -/
def subList (pat : List Char) : List Char → Bool
  | [] => pat.isEmpty
  | c :: cs => listStartsWith pat (c :: cs) || subList pat cs

/-- Python's `str.strip()`: drop whitespace from both ends. -/
def pyStrip (s : List Char) : List Char :=
  ((s.dropWhile isPyWs).reverse.dropWhile isPyWs).reverse

/-- The suffix of `s` from its first brace character (the whole suffix
that `s[s.find(chr(123)):]` denotes when `find` succeeds). -/
def dropBeforeBrace : List Char → List Char
  | [] => []
  | c :: cs => if c = '{' then c :: cs else dropBeforeBrace cs

/-- Whether `s.find(chr(123))` succeeds, i.e. `s` has a brace character. -/
def containsBrace (s : List Char) : Bool := s.any (fun c => c = '{')

/-! ### The result extractor (`parse_exit_check_results`, lines 233-295) -/

/-- The `MISSING_FILE_ERROR` constant of the checker. -/
def MISSING_FILE_ERROR : List Char := "No such file or directory".toList

/-- Payload isolation (lines 247-250): locate the first brace, discard
everything before it and strip whitespace; if there is no brace, the
string is left unchanged. -/
def isolatePayload (s : List Char) : List Char :=
  if containsBrace s then pyStrip (dropBeforeBrace s) else s

/-- Python's `dict.get(key, default)` on a decoded JSON object, where a
repeated key keeps its last binding (as `json.loads` builds its dict). -/
def dictGet (fs : List (List Char × Json)) (k : List Char) (d : Json) : Json :=
  (fs.foldl (fun acc p => if p.1 = k then some p.2 else acc) none).getD d

/-- Python truthiness of a decoded JSON value. -/
def jsonTruthy : Json → Bool
  | .null => false
  | .bool b => b
  | .num n => n ≠ 0
  | .str s => ¬s.isEmpty
  | .arr es => ¬es.isEmpty
  | .obj fs => ¬fs.isEmpty

mutual

/-- Python's rendering of a decoded JSON value: `str()` when `quoted` is
false, `repr()` when it is true (string escaping elided; only scalar
renderings are relied on by the checker's messages). -/
def pyRender : Bool → Json → List Char
  | _, .null => "None".toList
  | _, .bool true => "True".toList
  | _, .bool false => "False".toList
  | _, .num n => (toString n).toList
  | false, .str s => s
  | true, .str s => '\'' :: s ++ ['\'']
  | _, .arr es => '[' :: pyRenderElems es ++ [']']
  | _, .obj fs => '\x7b' :: pyRenderFields fs ++ ['\x7d']

/-- Container elements, comma-separated and rendered with `repr()`. -/
def pyRenderElems : List Json → List Char
  | [] => []
  | [x] => pyRender true x
  | x :: y :: rest => pyRender true x ++ ", ".toList ++ pyRenderElems (y :: rest)

/-- Dict members, comma-separated `key: value` pairs under `repr()`. -/
def pyRenderFields : List (List Char × Json) → List Char
  | [] => []
  | [(k, v)] => '\'' :: k ++ "': ".toList ++ pyRender true v
  | (k, v) :: y :: rest =>
    '\'' :: k ++ "': ".toList ++ pyRender true v ++ ", ".toList ++ pyRenderFields (y :: rest)

end

/-- Python's `str()` of a decoded JSON value, as an f-string renders it. -/
def pyStr : Json → List Char := pyRender false

/-- One failure detail line (line 276): the f-string
`"  - Exit Code ..: .."` built from `v.get`; a non-dict entry makes
`v.get` raise `AttributeError` (modelled as `none`). -/
def detailLine : Json → Option (List Char)
  | .obj fs =>
    some ("  - Exit Code ".toList ++ pyStr (dictGet fs "exit_code".toList Json.null)
      ++ ": ".toList ++ pyStr (dictGet fs "message".toList Json.null))
  | _ => none

/-- Detail lines for each validation entry in order; a raising entry
aborts the whole comprehension. -/
def detailLinesOf : List Json → Option (List (List Char))
  | [] => some []
  | v :: vs =>
    match detailLine v, detailLinesOf vs with
    | some l, some ls => some (l :: ls)
    | _, _ => none

/-- The list comprehension of line 276 over `failed_validations`:
iterating a non-list raises (or yields non-dicts, which raise in
`detailLine`), modelled as `none`. -/
def failureDetailLines : Json → Option (List (List Char))
  | .arr vs => detailLinesOf vs
  | _ => none

/-- Python's `"\n".join` of the detail lines. -/
def joinNl (ls : List (List Char)) : List Char :=
  match ls with
  | [] => []
  | [x] => x
  | x :: y :: rest => x ++ '\n' :: joinNl (y :: rest)

/-- Field extraction and classification (lines 253-295) applied to a
successfully decoded value: `.get` with defaults, the failure-detail
block, and the verdict `overall_status == "PASSED"`.  An exception
raised here (non-dict decode result, non-record validation entry) is
absorbed by the outer handler, which returns `(False, empty dict)`. -/
def classifyDecoded (results : Json) : Bool × Json :=
  match results with
  | Json.obj fs =>
    let overall_status := dictGet fs "overall_status".toList (Json.str "UNKNOWN".toList)
    let _total_failures := dictGet fs "total_failures".toList (Json.num 0)
    let failed_validations := dictGet fs "failed_validations".toList (Json.arr [])
    let _timestamp := dictGet fs "timestamp".toList (Json.str "N/A".toList)
    if overall_status = Json.str "FAILED".toList ∧ jsonTruthy failed_validations then
      match failureDetailLines failed_validations with
      | some _ => (overall_status = Json.str "PASSED".toList, results)
      | none => (false, Json.obj [])
    else (overall_status = Json.str "PASSED".toList, results)
  | _ => (false, Json.obj [])

/-- The whole result extractor applied to the raw string the device
returned for `sudo cat`: the missing-file presence check on the raw
output, payload isolation, JSON decode, and classification.  Every
failure path returns `(False, empty dict)`. -/
def parse_exit_check_results_output (json_output : List Char) : Bool × Json :=
  if json_output.isEmpty || subList MISSING_FILE_ERROR json_output then
    (false, Json.obj [])
  else
    match parseJson (isolatePayload json_output) with
    | some results => classifyDecoded results
    | none => (false, Json.obj [])

/-- Whether a string decodes (via the isolation-free `json.loads`) to a
JSON object, i.e. is a valid JSON object text. -/
def decodesToObj (s : List Char) : Bool :=
  match parseJson s with
  | some (Json.obj _) => true
  | _ => false

/-! ### The version resolver (`extract_version_from_os_version`, lines 111-116) -/

/-- Whether the regex `\d` x 6 matches at the start of `s`. -/
def sixDigitsAt (s : List Char) : Bool :=
  decide ((s.take 6).length = 6) && (s.take 6).all Char.isDigit

/-- `re.search` for six consecutive digits: the leftmost window of six
digit characters, or `none` when there is no such window. -/
def extract_version_from_os_version : List Char → Option (List Char)
  | [] => none
  | c :: cs =>
    if sixDigitsAt (c :: cs) then some ((c :: cs).take 6)
    else extract_version_from_os_version cs

/-! ### The execution orchestrator

`run_bash_script`, `cleanup_script` and the task body are modelled over
an abstract remote channel: `send_command` either returns a string or
raises.  Each remote interaction is recorded as an event, tagged with
the call site that issued it, so that traces can be counted. -/

/-- Outcome of one `send_command`: terminal output, or a raised
channel exception. -/
inductive CmdOutcome where
  | ok (out : List Char) : CmdOutcome
  | raise : CmdOutcome
deriving DecidableEq

/-- The remote command channel (`handler.connection`): a deterministic
response for each command string. -/
structure Channel where
  act : List Char → CmdOutcome

/-- Call sites that issue remote operations. -/
inductive Phase where
  | preTransfer : Phase
  | execute : Phase
  | resultsParse : Phase
  | cleanup : Phase
deriving DecidableEq

/-- Observable external interactions of one task invocation. -/
inductive Event where
  | sent (p : Phase) (cmd : List Char) : Event
  | scpTransfer : Event
  | fcmOpen : Event
  | fcmClose : Event
  | disconnect : Event
deriving DecidableEq

/-- `EXIT_CHECK_RESULTS_JSON`, the fixed results path on the device. -/
def EXIT_CHECK_RESULTS_JSON : List Char := "/tmp/exit_check_validation_results.json".toList

/-- The `sudo cat` command reading the results file (line 236). -/
def catCmd : List Char := "sudo cat ".toList ++ EXIT_CHECK_RESULTS_JSON

/-- Device-side path of a transferred script. -/
def scriptPath (fn : List Char) : List Char := "/tmp/".toList ++ fn

/-- Device-side path of the shared helper script. -/
def commonScriptPath : List Char := "/tmp/exit_check_common.sh".toList

/-- A `sudo chmod +x` command. -/
def chmodCmd (path : List Char) : List Char := "sudo chmod +x ".toList ++ path

/-- A `sudo rm -f` command. -/
def rmCmd (path : List Char) : List Char := "sudo rm -f ".toList ++ path

/-- The `sudo bash` command executing the selected script. -/
def bashCmd (fn : List Char) : List Char := "sudo bash ".toList ++ scriptPath fn

/-- `parse_exit_check_results` at channel level (lines 233-295): issue
the `sudo cat`, and on a channel exception let the outer handler return
`(False, empty dict)`; otherwise run the extractor on the output. -/
def parse_exit_check_results (ch : Channel) : (Bool × Json) × List Event :=
  match ch.act catCmd with
  | .ok out => (parse_exit_check_results_output out, [Event.sent Phase.resultsParse catCmd])
  | .raise => ((false, Json.obj []), [Event.sent Phase.resultsParse catCmd])

/-- The `try` block of `run_bash_script` (lines 313-343): chmod both
scripts, delete any previous results file, run the script.  The first
raised exception abandons the rest of the block (and is caught). -/
def runBashTry (ch : Channel) (fn : List Char) : List Event :=
  match ch.act (chmodCmd (scriptPath fn)) with
  | .raise => [Event.sent Phase.execute (chmodCmd (scriptPath fn))]
  | .ok _ =>
    match ch.act (chmodCmd commonScriptPath) with
    | .raise => [Event.sent Phase.execute (chmodCmd (scriptPath fn)),
        Event.sent Phase.execute (chmodCmd commonScriptPath)]
    | .ok _ =>
      match ch.act (rmCmd EXIT_CHECK_RESULTS_JSON) with
      | .raise => [Event.sent Phase.execute (chmodCmd (scriptPath fn)),
          Event.sent Phase.execute (chmodCmd commonScriptPath),
          Event.sent Phase.execute (rmCmd EXIT_CHECK_RESULTS_JSON)]
      | .ok _ => [Event.sent Phase.execute (chmodCmd (scriptPath fn)),
          Event.sent Phase.execute (chmodCmd commonScriptPath),
          Event.sent Phase.execute (rmCmd EXIT_CHECK_RESULTS_JSON),
          Event.sent Phase.execute (bashCmd fn)]

/-- `run_bash_script` (lines 298-378): execution exceptions are caught
and logged, then the results file is read and parsed regardless; the
boolean verdict is exactly the parse verdict. -/
def run_bash_script (ch : Channel) (fn : List Char) : Bool × List Event :=
  ((parse_exit_check_results ch).1.1,
    runBashTry ch fn ++ (parse_exit_check_results ch).2)

/-- `cleanup_script` (lines 381-418): remove the script, the helper
script and the results file; a raised exception is caught, skipping the
commands after it. -/
def cleanup_script (ch : Channel) (fn : List Char) : List Event :=
  match ch.act (rmCmd (scriptPath fn)) with
  | .raise => [Event.sent Phase.cleanup (rmCmd (scriptPath fn))]
  | .ok _ =>
    match ch.act (rmCmd commonScriptPath) with
    | .raise => [Event.sent Phase.cleanup (rmCmd (scriptPath fn)),
        Event.sent Phase.cleanup (rmCmd commonScriptPath)]
    | .ok _ => [Event.sent Phase.cleanup (rmCmd (scriptPath fn)),
        Event.sent Phase.cleanup (rmCmd commonScriptPath),
        Event.sent Phase.cleanup (rmCmd EXIT_CHECK_RESULTS_JSON)]

/-- Outcome of one external step that can raise. -/
inductive StepOutcome (α : Type) where
  | ok (a : α) : StepOutcome α
  | raise : StepOutcome α
deriving DecidableEq

/-- Behaviour of the external collaborators for one task invocation. -/
structure TaskEnv where
  ch : Channel
  getHandler : StepOutcome Unit
  connect : StepOutcome Unit
  /-- Result of `validate_device_and_get_version`: a raised exception,
  or `(is_valid, version_key)` collapsed to an optional key. -/
  validate : StepOutcome (Option (List Char))
  /-- `VERSION_SCRIPT_MAP.get` inside `select_script_for_version`. -/
  scriptFor : List Char → Option (List Char)
  /-- `create_fcm_entry`: a raised exception, or its boolean result. -/
  fcmCreate : StepOutcome Bool
  scriptExists : Bool
  commonExists : Bool
  /-- `scp_files_to_device` for both files. -/
  scp : StepOutcome Unit

/-- The task body inside the outer `try` (lines 485-605), producing the
boolean verdict and the trace of external interactions. -/
def taskBody (env : TaskEnv) : Bool × List Event :=
  match env.connect with
  | .raise => (false, [])
  | .ok _ =>
    match env.validate with
    | .raise => (false, [])
    | .ok none => (false, [])
    | .ok (some vk) =>
      match env.scriptFor vk with
      | none => (false, [])
      | some fn =>
        match env.fcmCreate with
        | .raise => (false, [Event.fcmOpen])
        | .ok fcmCreated =>
          if ¬env.scriptExists then (false, [Event.fcmOpen])
          else if ¬env.commonExists then (false, [Event.fcmOpen])
          else
            match env.ch.act (rmCmd (scriptPath fn)) with
            | .raise => (false, [Event.fcmOpen, Event.sent Phase.preTransfer (rmCmd (scriptPath fn))])
            | .ok _ =>
              match env.ch.act (rmCmd commonScriptPath) with
              | .raise => (false, [Event.fcmOpen,
                  Event.sent Phase.preTransfer (rmCmd (scriptPath fn)),
                  Event.sent Phase.preTransfer (rmCmd commonScriptPath)])
              | .ok _ =>
                match env.scp with
                | .raise => (false, [Event.fcmOpen,
                    Event.sent Phase.preTransfer (rmCmd (scriptPath fn)),
                    Event.sent Phase.preTransfer (rmCmd commonScriptPath), Event.scpTransfer])
                | .ok _ =>
                  ((run_bash_script env.ch fn).1,
                    [Event.fcmOpen,
                      Event.sent Phase.preTransfer (rmCmd (scriptPath fn)),
                      Event.sent Phase.preTransfer (rmCmd commonScriptPath), Event.scpTransfer]
                    ++ (run_bash_script env.ch fn).2 ++ cleanup_script env.ch fn
                    ++ (if fcmCreated then [Event.fcmClose] else []))

/-- `execute_sonic_warmreboot_blocker_checker` (lines 474-611): the body
under the outer exception handler, and the `finally` block that invokes
`handler.disconnect()` whenever the handler was obtained (when
`get_device_handler` itself raised, the name is unbound and the guarded
disconnect is skipped). -/
def execute_sonic_warmreboot_blocker_checker (env : TaskEnv) : Bool × List Event :=
  match env.getHandler with
  | .raise => (false, [])
  | .ok _ => ((taskBody env).1, (taskBody env).2 ++ [Event.disconnect])

/-- Occurrence count of an event in a trace. -/
def countEv (e : Event) : List Event → Nat
  | [] => 0
  | x :: xs => (if x = e then 1 else 0) + countEv e xs

/-! ### Lemmas about the string primitives -/

theorem listStartsWith_iff (pat s : List Char) :
    listStartsWith pat s = true ↔ ∃ v, s = pat ++ v := by
  induction pat generalizing s with
  | nil => simp [listStartsWith]
  | cons p ps ih =>
    cases s with
    | nil =>
      simp only [listStartsWith, List.cons_append]
      constructor
      · intro h; cases h
      · rintro ⟨v, h⟩; cases h
    | cons c cs =>
      simp only [listStartsWith, Bool.and_eq_true, decide_eq_true_eq, ih, List.cons_append,
        List.cons.injEq]
      constructor
      · rintro ⟨rfl, v, rfl⟩; exact ⟨v, rfl, rfl⟩
      · rintro ⟨v, rfl, rfl⟩; exact ⟨rfl, v, rfl⟩

theorem subList_iff (pat s : List Char) :
    subList pat s = true ↔ ∃ u v, s = u ++ pat ++ v := by
  induction s with
  | nil =>
    cases pat with
    | nil => simp [subList]
    | cons p ps =>
      simp only [subList, List.isEmpty_cons]
      constructor
      · intro h; cases h
      · rintro ⟨u, v, h⟩
        have := congrArg List.length h
        simp [List.length_append] at this
        omega
  | cons c cs ih =>
    rw [subList]
    simp only [Bool.or_eq_true, listStartsWith_iff, ih]
    constructor
    · rintro (⟨v, hv⟩ | ⟨u, v, hv⟩)
      · exact ⟨[], v, by simpa using hv⟩
      · exact ⟨c :: u, v, by simp [hv]⟩
    · rintro ⟨u, v, h⟩
      cases u with
      | nil => exact Or.inl ⟨v, by simpa using h⟩
      | cons x u2 =>
        rw [List.cons_append, List.cons_append] at h
        injection h with h1 h2
        exact Or.inr ⟨u2, v, by simpa using h2⟩

theorem subList_ne_true {pat s : List Char} (h : subList pat s = false) :
    ¬ ∃ u v, s = u ++ pat ++ v := by
  intro hx
  rw [← subList_iff] at hx
  rw [h] at hx
  cases hx

/-- Occurrences of a pattern in an appended string: entirely inside the
left part, entirely inside the right part, or straddling the boundary. -/
theorem occurs_append_split {p a b : List Char} (h : ∃ u v, a ++ b = u ++ p ++ v) :
    (∃ u v, a = u ++ p ++ v) ∨ (∃ u v, b = u ++ p ++ v) ∨
      (∃ s t, p = s ++ t ∧ s ≠ [] ∧ t ≠ [] ∧ (∃ u, a = u ++ s) ∧ (∃ v, b = t ++ v)) := by
  obtain ⟨u, v, huv⟩ := h
  rw [List.append_assoc] at huv
  rcases List.append_eq_append_iff.mp huv with ⟨w, hw1, hw2⟩ | ⟨w, hw1, hw2⟩
  · -- u = a ++ w, b = w ++ (p ++ v): the occurrence is inside b
    right; left
    exact ⟨w, v, by rw [hw2]; simp [List.append_assoc]⟩
  · -- a = u ++ w, p ++ v = w ++ b
    rcases List.append_eq_append_iff.mp hw2 with ⟨x, hx1, hx2⟩ | ⟨x, hx1, hx2⟩
    · -- w = p ++ x, v = x ++ b: the occurrence is inside a
      left
      exact ⟨u, x, by rw [hw1, hx1]; simp [List.append_assoc]⟩
    · -- p = w ++ x, b = x ++ v
      cases w with
      | nil =>
        right; left
        refine ⟨[], v, ?_⟩
        simp only [List.nil_append] at hx1
        rw [hx2, hx1]
        simp
      | cons w0 ws =>
        cases x with
        | nil =>
          left
          refine ⟨u, [], ?_⟩
          simp only [List.append_nil] at hx1
          rw [hw1, hx1]
          simp
        | cons x0 xs =>
          right; right
          exact ⟨w0 :: ws, x0 :: xs, hx1, by simp, by simp, ⟨u, hw1⟩, ⟨v, hx2⟩⟩

theorem mem_of_getLastQ {t : List Char} {a : Char} (h : t.getLast? = some a) : a ∈ t := by
  induction t with
  | nil => cases h
  | cons x xs ih =>
    cases xs with
    | nil =>
      simp only [List.getLast?_singleton, Option.some.injEq] at h
      simp [h]
    | cons y ys =>
      rw [List.getLast?_cons_cons] at h
      exact List.mem_cons_of_mem _ (ih h)

theorem countEv_append (e : Event) (a b : List Event) :
    countEv e (a ++ b) = countEv e a + countEv e b := by
  induction a with
  | nil => simp [countEv]
  | cons x xs ih => simp [countEv, ih]; omega

/-! ### Lemmas about the JSON decoder -/

theorem parseNumber_num {s : List Char} {v : Json} {r : List Char}
    (h : parseNumber s = some (v, r)) : ∃ n, v = Json.num n := by
  unfold parseNumber at h
  split at h
  · split at h
    · unfold floatGuard at h
      split at h <;> try cases h
      exact ⟨_, rfl⟩
    · cases h
  · split at h
    · unfold floatGuard at h
      split at h <;> try cases h
      exact ⟨_, rfl⟩
    · cases h

theorem parseVal_obj_head {fuel : Nat} {s : List Char} {o : List (List Char × Json)}
    {r : List Char} (h : parseVal fuel s = some (Json.obj o, r)) :
    ∃ rest, s.dropWhile isJsonWs = '{' :: rest := by
  cases fuel with
  | zero => cases h
  | succ fuel =>
    rw [parseVal] at h
    split at h
    next heq => cases h
    next c rest heq =>
      by_cases hc : c = '{'
      · exact ⟨rest, by rw [heq, hc]⟩
      · exfalso
        rw [if_neg hc] at h
        by_cases hb : c = '[' <;> [rw [if_pos hb] at h; rw [if_neg hb] at h]
        · split at h <;> try simp at h
          split at h <;> simp at h
        · by_cases hq : c = '"' <;> [rw [if_pos hq] at h; rw [if_neg hq] at h]
          · split at h <;> simp at h
          · by_cases hn : c = 'n' <;> [rw [if_pos hn] at h; rw [if_neg hn] at h]
            · split at h <;> simp at h
            · by_cases ht : c = 't' <;> [rw [if_pos ht] at h; rw [if_neg ht] at h]
              · split at h <;> simp at h
              · by_cases hf : c = 'f' <;> [rw [if_pos hf] at h; rw [if_neg hf] at h]
                · split at h <;> simp at h
                · split at h
                  · obtain ⟨n, hn2⟩ := parseNumber_num h
                    cases hn2
                  · cases h

theorem parseJson_obj_shape {s : List Char} {o : List (List Char × Json)}
    (h : parseJson s = some (Json.obj o)) :
    ∃ ws rest, s = ws ++ '{' :: rest ∧ ∀ c ∈ ws, isJsonWs c = true := by
  unfold parseJson at h
  split at h
  case _ v rest heq =>
    split at h
    · injection h with h2
      subst h2
      obtain ⟨rest2, hd⟩ := parseVal_obj_head heq
      refine ⟨s.takeWhile isJsonWs, rest2, ?_, ?_⟩
      · conv_lhs => rw [← List.takeWhile_append_dropWhile isJsonWs s]
        rw [hd]
      · intro c hc
        exact List.mem_takeWhile_imp hc
    · cases h
  case _ => cases h

theorem parseJson_obj_brace {s : List Char} {o : List (List Char × Json)}
    (h : parseJson s = some (Json.obj o)) : '{' ∈ s := by
  obtain ⟨ws, rest, hs, _⟩ := parseJson_obj_shape h
  rw [hs]
  exact List.mem_append_right ws (List.mem_cons_self _ _)

/-! ### Lemmas about payload isolation -/

theorem containsBrace_iff {s : List Char} : containsBrace s = true ↔ '{' ∈ s := by
  simp only [containsBrace, List.any_eq_true, decide_eq_true_eq]
  constructor
  · rintro ⟨c, hc, rfl⟩; exact hc
  · intro h; exact ⟨'{', h, rfl⟩

theorem dropBeforeBrace_append {p : List Char} (j : List Char)
    (hp : containsBrace p = false) : dropBeforeBrace (p ++ j) = dropBeforeBrace j := by
  induction p with
  | nil => rfl
  | cons c cs ih =>
    simp only [containsBrace, List.any_cons, Bool.or_eq_false_iff, decide_eq_false_iff_not] at hp
    rw [List.cons_append, dropBeforeBrace]
    rw [if_neg hp.1]
    exact ih (by simp [containsBrace, hp.2])

theorem decodesToObj_eq {s : List Char} (h : decodesToObj s = true) :
    ∃ o, parseJson s = some (Json.obj o) := by
  unfold decodesToObj at h
  split at h
  next o heq => exact ⟨o, heq⟩
  next => cases h

/-- The missing-file marker cannot occur in `p ++ j` when it occurs in
neither part and `j` is a JSON object text: a straddling occurrence
would have to put the marker's final letter among the whitespace or at
the opening brace that begins `j`. -/
theorem marker_not_in_append {p j : List Char} {o : List (List Char × Json)}
    (hp : subList MISSING_FILE_ERROR p = false)
    (hj : subList MISSING_FILE_ERROR j = false)
    (hshape : parseJson j = some (Json.obj o)) :
    subList MISSING_FILE_ERROR (p ++ j) = false := by
  cases hin : subList MISSING_FILE_ERROR (p ++ j) with
  | false => rfl
  | true =>
    exfalso
    rcases occurs_append_split ((subList_iff _ _).mp hin) with hA | hB | hS
    · exact subList_ne_true hp hA
    · exact subList_ne_true hj hB
    · obtain ⟨s, t, hst, _hsne, htne, ⟨u, hu⟩, ⟨v, hv⟩⟩ := hS
      obtain ⟨ws, rest, hjw, hws⟩ := parseJson_obj_shape hshape
      have hty : t.getLast? = some 'y' := by
        have h1 : MISSING_FILE_ERROR.getLast? = some 'y' := by decide
        rw [hst, List.getLast?_append_of_ne_nil s htne] at h1
        exact h1
      have hyt : 'y' ∈ t := mem_of_getLastQ hty
      have heq : ws ++ '{' :: rest = t ++ v := hjw.symm.trans hv
      rcases List.append_eq_append_iff.mp heq with ⟨w, hw1, hw2⟩ | ⟨w, hw1, hw2⟩
      · -- t = ws ++ w and the brace run starts with w
        cases w with
        | nil =>
          rw [List.append_nil] at hw1
          have : isJsonWs 'y' = true := hws 'y' (hw1 ▸ hyt)
          exact absurd this (by decide)
        | cons w0 wrest =>
          have hw0 : w0 = '{' := by
            rw [List.cons_append] at hw2
            exact ((List.cons.injEq .. ▸ hw2).1).symm
          have hbt : '{' ∈ t := by
            rw [hw1, hw0]
            exact List.mem_append_right ws (List.mem_cons_self _ _)
          have : '{' ∈ MISSING_FILE_ERROR := by
            rw [hst]; exact List.mem_append_right s hbt
          exact absurd this (by decide)
      · -- ws = t ++ w: t is all whitespace
        have : isJsonWs 'y' = true := hws 'y' (hw1 ▸ List.mem_append_left w hyt)
        exact absurd this (by decide)

theorem subList_append_of_right {pat a b : List Char} (h : subList pat b = true) :
    subList pat (a ++ b) = true := by
  obtain ⟨u, v, huv⟩ := (subList_iff _ _).mp h
  exact (subList_iff _ _).mpr ⟨a ++ u, v, by rw [huv]; simp [List.append_assoc]⟩

theorem appendLeftCancel {a b c : List Char} (h : a ++ b = a ++ c) : b = c := by
  induction a with
  | nil => simpa using h
  | cons x xs ih =>
    rw [List.cons_append, List.cons_append] at h
    exact ih (List.cons.injEq .. ▸ h).2

theorem rmCmd_inj {a b : List Char} (h : rmCmd a = rmCmd b) : a = b :=
  appendLeftCancel h

theorem scriptPath_inj {a b : List Char} (h : scriptPath a = scriptPath b) : a = b :=
  appendLeftCancel h

/-- When the presence check passes and decode succeeds, the extractor's
result is the classification of the decoded value. -/
theorem parse_output_decoded {out : List Char} {v : Json}
    (hne : out.isEmpty = false)
    (hnm : subList MISSING_FILE_ERROR out = false)
    (hdec : parseJson (isolatePayload out) = some v) :
    parse_exit_check_results_output out = classifyDecoded v := by
  unfold parse_exit_check_results_output
  rw [hnm, hne, hdec]
  rfl

/-! ### Claims -/

/-- C1, counterexample: the claim quantifies over every prefix not
containing a brace, but a prefix that contains the missing-file marker
(such as the `cat` error line, which has no brace) changes the verdict:
prepended to a valid PASSED report it makes extraction fail the
presence check, while the report alone parses to a passing verdict. -/
theorem c1_prefix_with_marker_counterexample :
    containsBrace "cat: f.json: No such file or directory\n".toList = false ∧
    decodesToObj "\x7b\"overall_status\": \"PASSED\"\x7d".toList = true ∧
    parse_exit_check_results_output ("cat: f.json: No such file or directory\n".toList
        ++ "\x7b\"overall_status\": \"PASSED\"\x7d".toList)
      ≠ parse_exit_check_results_output "\x7b\"overall_status\": \"PASSED\"\x7d".toList := by
  refine ⟨by decide, by decide, ?_⟩
  decide

/-- C1 (amended): for every prefix string containing neither the brace
character nor the missing-file marker substring, concatenating it in
front of a valid JSON object text leaves the extracted verdict and
report unchanged — the same success flag and the same parsed report as
parsing the JSON object text alone. -/
theorem c1_noise_tolerant_extraction (p j : List Char)
    (hpb : containsBrace p = false)
    (hpm : subList MISSING_FILE_ERROR p = false)
    (hj : decodesToObj j = true) :
    parse_exit_check_results_output (p ++ j) = parse_exit_check_results_output j := by
  obtain ⟨o, hjo⟩ := decodesToObj_eq hj
  obtain ⟨ws, rest, hjw, _⟩ := parseJson_obj_shape hjo
  have hbj : '{' ∈ j := parseJson_obj_brace hjo
  have hjne : j.isEmpty = false := by
    rw [hjw]; cases ws <;> rfl
  have hpjne : (p ++ j).isEmpty = false := by
    cases p with
    | nil => simpa using hjne
    | cons _ _ => rfl
  cases hmj : subList MISSING_FILE_ERROR j with
  | true =>
    have hmpj : subList MISSING_FILE_ERROR (p ++ j) = true := subList_append_of_right hmj
    unfold parse_exit_check_results_output
    rw [hmj, hmpj, hjne, hpjne]
    simp
  | false =>
    have hmpj : subList MISSING_FILE_ERROR (p ++ j) = false :=
      marker_not_in_append hpm hmj hjo
    have hpay : isolatePayload (p ++ j) = isolatePayload j := by
      unfold isolatePayload
      have hcb : containsBrace (p ++ j) = true :=
        containsBrace_iff.mpr (List.mem_append_right p hbj)
      have hcbj : containsBrace j = true := containsBrace_iff.mpr hbj
      rw [hcb, hcbj, dropBeforeBrace_append j hpb]
      simp
    unfold parse_exit_check_results_output
    rw [hmj, hmpj, hjne, hpjne, hpay]

/-- C1, witness: a prompt-and-echo prefix before a PASSED report leaves
the verdict identical to the report parsed alone, and that verdict has
success = true. -/
theorem c1_noise_tolerant_extraction_witness :
    parse_exit_check_results_output ("host# sudo cat /tmp/exit_check_validation_results.json\n".toList
        ++ "\x7b\"overall_status\": \"PASSED\", \"total_failures\": 0, \"failed_validations\": [], \"timestamp\": \"t\"\x7d".toList)
      = parse_exit_check_results_output "\x7b\"overall_status\": \"PASSED\", \"total_failures\": 0, \"failed_validations\": [], \"timestamp\": \"t\"\x7d".toList ∧
    (parse_exit_check_results_output "\x7b\"overall_status\": \"PASSED\", \"total_failures\": 0, \"failed_validations\": [], \"timestamp\": \"t\"\x7d".toList).1 = true := by
  constructor
  · exact c1_noise_tolerant_extraction _ _ (by decide) (by decide) (by decide)
  · decide

/-- C3: an empty raw output, or one containing the substring
"No such file or directory" anywhere, yields the verdict
`(False, empty dict)` regardless of whatever else the output holds —
the presence check runs on the raw, unstripped output and short-circuits
before any decode. -/
theorem c3_missing_file_short_circuit (out : List Char)
    (h : out = [] ∨ subList MISSING_FILE_ERROR out = true) :
    parse_exit_check_results_output out = (false, Json.obj []) := by
  unfold parse_exit_check_results_output
  rcases h with rfl | hm
  · rfl
  · rw [hm]
    cases out with
    | nil => rfl
    | cons c cs => rfl

/-- C3, witness: a real missing-file error line followed by a valid
PASSED JSON object still fails the presence check. -/
theorem c3_missing_file_short_circuit_witness :
    parse_exit_check_results_output
        "cat: /tmp/exit_check_validation_results.json: No such file or directory\n\x7b\"overall_status\": \"PASSED\"\x7d".toList
      = (false, Json.obj []) :=
  c3_missing_file_short_circuit _ (Or.inr (by decide))

/-- C6, counterexample: the claim asserts that JSON decoding fails for
every non-empty, marker-free raw output with no brace, but the input
"123" satisfies all three conditions and decodes successfully (to a
non-object value). -/
theorem c6_valid_json_without_brace_counterexample :
    ("123".toList ≠ ([] : List Char)) ∧
    subList MISSING_FILE_ERROR "123".toList = false ∧
    containsBrace "123".toList = false ∧
    parseJson (isolatePayload "123".toList) = some (Json.num 123) := by
  refine ⟨by decide, by decide, by decide, by decide⟩

/-- C6 (amended): for every non-empty raw output with no missing-file
marker and no brace character, payload isolation leaves the string
unchanged and the extractor returns `(False, empty dict)` without
raising; JSON decoding either fails outright or yields a non-object
value whose field extraction failure is absorbed. -/
theorem c6_no_brace_verdict (out : List Char)
    (hne : out ≠ [])
    (hnm : subList MISSING_FILE_ERROR out = false)
    (hnb : containsBrace out = false) :
    isolatePayload out = out ∧
    parse_exit_check_results_output out = (false, Json.obj []) := by
  have hiso : isolatePayload out = out := by
    unfold isolatePayload
    rw [hnb]
    simp
  refine ⟨hiso, ?_⟩
  have hie : out.isEmpty = false := by
    cases out with
    | nil => exact absurd rfl hne
    | cons _ _ => rfl
  unfold parse_exit_check_results_output
  rw [hnm, hie, hiso]
  rcases hp : parseJson out with _ | v
  · simp
  · cases v with
    | obj o =>
      exact absurd (containsBrace_iff.mpr (parseJson_obj_brace hp)) (by rw [hnb]; simp)
    | null => simp [classifyDecoded]
    | bool b => simp [classifyDecoded]
    | num n => simp [classifyDecoded]
    | str s => simp [classifyDecoded]
    | arr es => simp [classifyDecoded]

/-- C6, witness: the spec's own example input. -/
theorem c6_no_brace_verdict_witness :
    isolatePayload "garbage no brace".toList = "garbage no brace".toList ∧
    parse_exit_check_results_output "garbage no brace".toList = (false, Json.obj []) :=
  c6_no_brace_verdict _ (by decide) (by decide) (by decide)

/-- C7: decoding the report text consisting of an empty JSON object
gives a report whose fields take the documented defaults — status
"UNKNOWN", zero failures, no validations, timestamp "N/A" — the verdict
success flag is false, and an extra unexpected field does not raise
either. -/
theorem c7_unknown_status_defaults :
    parseJson (isolatePayload "\x7b\x7d".toList) = some (Json.obj []) ∧
    dictGet [] "overall_status".toList (Json.str "UNKNOWN".toList) = Json.str "UNKNOWN".toList ∧
    dictGet [] "total_failures".toList (Json.num 0) = Json.num 0 ∧
    dictGet [] "failed_validations".toList (Json.arr []) = Json.arr [] ∧
    dictGet [] "timestamp".toList (Json.str "N/A".toList) = Json.str "N/A".toList ∧
    parse_exit_check_results_output "\x7b\x7d".toList = (false, Json.obj []) ∧
    classifyDecoded (Json.obj [("extra".toList, Json.num 1)])
      = (false, Json.obj [("extra".toList, Json.num 1)]) := by
  refine ⟨by decide, by decide, by decide, by decide, by decide, by decide, by decide⟩

/-- C10: when the presence check passes and the isolated payload decodes
to a JSON value that is not an object, the extractor still returns
`(False, empty dict)` without raising: field extraction on a non-dict
raises AttributeError, which the outer catch-all absorbs. -/
theorem c10_non_object_decode_absorbed (out : List Char) (v : Json)
    (hne : out.isEmpty = false)
    (hnm : subList MISSING_FILE_ERROR out = false)
    (hdec : parseJson (isolatePayload out) = some v)
    (hno : ∀ fs, v ≠ Json.obj fs) :
    parse_exit_check_results_output out = (false, Json.obj []) := by
  unfold parse_exit_check_results_output
  rw [hnm, hne, hdec]
  cases v with
  | obj o => exact absurd rfl (hno o)
  | null => simp [classifyDecoded]
  | bool b => simp [classifyDecoded]
  | num n => simp [classifyDecoded]
  | str s => simp [classifyDecoded]
  | arr es => simp [classifyDecoded]

/-- C10, witness: a JSON array passes decode but is absorbed into the
failure verdict. -/
theorem c10_non_object_decode_absorbed_witness :
    parse_exit_check_results_output "[1, 2]".toList = (false, Json.obj []) :=
  c10_non_object_decode_absorbed _ (Json.arr [Json.num 1, Json.num 2])
    (by decide) (by decide) (by decide) (fun fs h => Json.noConfusion h)

/-- C2: for every raw output whose payload decodes to a JSON object, the
verdict's success flag is true exactly when the report's
`overall_status` member (defaulted to "UNKNOWN" when absent) equals the
string "PASSED" byte for byte; any other value gives success = false. -/
theorem c2_success_iff_passed (out : List Char) (fs : List (List Char × Json))
    (hne : out.isEmpty = false)
    (hnm : subList MISSING_FILE_ERROR out = false)
    (hdec : parseJson (isolatePayload out) = some (Json.obj fs)) :
    ((parse_exit_check_results_output out).1 = true ↔
      dictGet fs "overall_status".toList (Json.str "UNKNOWN".toList)
        = Json.str "PASSED".toList) := by
  rw [parse_output_decoded hne hnm hdec]
  simp only [classifyDecoded]
  by_cases hcond : dictGet fs "overall_status".toList (Json.str "UNKNOWN".toList)
      = Json.str "FAILED".toList
      ∧ jsonTruthy (dictGet fs "failed_validations".toList (Json.arr [])) = true
  · rw [if_pos hcond, hcond.1]
    split
    · show decide (Json.str "FAILED".toList = Json.str "PASSED".toList) = true
        ↔ Json.str "FAILED".toList = Json.str "PASSED".toList
      decide
    · show false = true ↔ Json.str "FAILED".toList = Json.str "PASSED".toList
      decide
  · rw [if_neg hcond]
    show decide (dictGet fs "overall_status".toList (Json.str "UNKNOWN".toList)
        = Json.str "PASSED".toList) = true
      ↔ dictGet fs "overall_status".toList (Json.str "UNKNOWN".toList)
        = Json.str "PASSED".toList
    simp only [decide_eq_true_eq]

/-- C2, witness: a concrete PASSED report behind prompt noise. -/
theorem c2_success_iff_passed_witness :
    ((parse_exit_check_results_output "sonic# cat f\n\x7b\"overall_status\": \"PASSED\"\x7d".toList).1 = true ↔
      dictGet [("overall_status".toList, Json.str "PASSED".toList)]
        "overall_status".toList (Json.str "UNKNOWN".toList) = Json.str "PASSED".toList) :=
  c2_success_iff_passed _ _ (by decide) (by decide) (by decide)

/-- C8, counterexample: for the claim's own report the single detail
line is the bulleted string "  - Exit Code 30: Leftover tunnel", which
is not equal to the claim's quoted line "Exit Code 30: Leftover tunnel"
(the code prepends a two-space-dash bullet to every detail line). -/
theorem c8_detail_line_counterexample :
    failureDetailLines (Json.arr [Json.obj [("exit_code".toList, Json.num 30),
        ("message".toList, Json.str "Leftover tunnel".toList)]])
      = some ["  - Exit Code 30: Leftover tunnel".toList] ∧
    "  - Exit Code 30: Leftover tunnel".toList ≠ "Exit Code 30: Leftover tunnel".toList := by
  refine ⟨by decide, by decide⟩

set_option maxRecDepth 8192 in
/-- C8 (amended): for a FAILED report with a non-empty sequence of
validation records the classifier produces exactly one detail line per
failed validation, in the original order; each line carries the entry's
exit_code and message after a "  - " bullet, the lines are
newline-joined, and for the claim's concrete report the verdict is
false with the single detail line "  - Exit Code 30: Leftover tunnel"
(which contains the text "Exit Code 30: Leftover tunnel"). -/
theorem c8_failed_detail_lines :
    (∀ vs ls, failureDetailLines (Json.arr vs) = some ls →
      ls.length = vs.length ∧
      ∀ i (h1 : i < vs.length) (h2 : i < ls.length),
        detailLine (vs.get ⟨i, h1⟩) = some (ls.get ⟨i, h2⟩)) ∧
    parse_exit_check_results_output
        "\x7b\"overall_status\": \"FAILED\", \"total_failures\": 1, \"failed_validations\": [\x7b\"exit_code\": 30, \"message\": \"Leftover tunnel\"\x7d]\x7d".toList
      = (false, Json.obj [("overall_status".toList, Json.str "FAILED".toList),
          ("total_failures".toList, Json.num 1),
          ("failed_validations".toList, Json.arr [Json.obj [("exit_code".toList, Json.num 30),
            ("message".toList, Json.str "Leftover tunnel".toList)]])]) ∧
    failureDetailLines (Json.arr [Json.obj [("exit_code".toList, Json.num 30),
        ("message".toList, Json.str "Leftover tunnel".toList)]])
      = some ["  - Exit Code 30: Leftover tunnel".toList] ∧
    subList "Exit Code 30: Leftover tunnel".toList
      (joinNl ["  - Exit Code 30: Leftover tunnel".toList]) = true := by
  refine ⟨?_, by decide, by decide, by decide⟩
  intro vs
  induction vs with
  | nil =>
    intro ls h
    have h2 : some ([] : List (List Char)) = some ls := h
    cases h2
    exact ⟨rfl, fun i h1 h2 => absurd h1 (by simp)⟩
  | cons v vs ih =>
    intro ls h
    simp only [failureDetailLines] at h ih
    rw [detailLinesOf] at h
    split at h
    next l ls2 hl hls =>
      cases h
      obtain ⟨hlen, hidx⟩ := ih ls2 hls
      refine ⟨by simp [hlen], ?_⟩
      intro i h1 h2
      cases i with
      | zero => exact hl
      | succ n => exact hidx n (by simpa using h1) (by simpa using h2)
    next => cases h

/-- C8, witness: the detail line of the claim's validation record. -/
theorem c8_failed_detail_lines_witness :
    detailLine (Json.obj [("exit_code".toList, Json.num 30),
        ("message".toList, Json.str "Leftover tunnel".toList)])
      = some "  - Exit Code 30: Leftover tunnel".toList := by
  have h := c8_failed_detail_lines.1
    [Json.obj [("exit_code".toList, Json.num 30),
      ("message".toList, Json.str "Leftover tunnel".toList)]]
    ["  - Exit Code 30: Leftover tunnel".toList] (by decide)
  exact h.2 0 (by decide) (by decide)

/-- C9: `extract_version_from_os_version` returns the leftmost window of
six consecutive digit characters when one exists (a six-character
all-digit segment whose preceding segment is shortest possible), and
`none` exactly when the string has no six-digit window; in particular
the two documented examples extract "201811" and "202305". -/
theorem c9_version_extraction :
    (∀ s v, extract_version_from_os_version s = some v →
      v.length = 6 ∧ v.all Char.isDigit = true ∧
      ∃ a b, s = a ++ v ++ b ∧
        ∀ a2 v2 b2, s = a2 ++ v2 ++ b2 → v2.length = 6 → v2.all Char.isDigit = true →
          a.length ≤ a2.length) ∧
    (∀ s, extract_version_from_os_version s = none →
      ∀ a v b, s = a ++ v ++ b → v.length = 6 → v.all Char.isDigit = false) ∧
    extract_version_from_os_version "SONiC.20181130.101".toList = some "201811".toList ∧
    extract_version_from_os_version "SONiC.20230531.01".toList = some "202305".toList := by
  have hsix : ∀ (v2 b2 : List Char), v2.length = 6 → v2.all Char.isDigit = true →
      sixDigitsAt (v2 ++ b2) = true := by
    intro v2 b2 hl2 hd2
    have ht : (v2 ++ b2).take 6 = v2 := by
      rw [← hl2]
      exact List.take_left v2 b2
    unfold sixDigitsAt
    rw [ht]
    simp [hl2, hd2]
  refine ⟨?_, ?_, by decide, by decide⟩
  · intro s
    induction s with
    | nil => intro v h; cases h
    | cons c cs ih =>
      intro v h
      rw [extract_version_from_os_version] at h
      by_cases h6 : sixDigitsAt (c :: cs) = true
      · rw [if_pos h6] at h
        cases h
        have h61 := h6
        unfold sixDigitsAt at h61
        simp only [Bool.and_eq_true, decide_eq_true_eq] at h61
        refine ⟨h61.1, h61.2, [], (c :: cs).drop 6, ?_, ?_⟩
        · rw [List.nil_append, List.take_append_drop]
        · intro a2 v2 b2 _ _ _
          exact Nat.zero_le _
      · rw [if_neg h6] at h
        obtain ⟨hlen, hdig, a, b, hs, hmin⟩ := ih v h
        refine ⟨hlen, hdig, c :: a, b, by rw [hs]; simp, ?_⟩
        intro a2 v2 b2 heq hl2 hd2
        cases a2 with
        | nil =>
          exfalso
          rw [List.nil_append] at heq
          exact h6 (by rw [heq]; exact hsix v2 b2 hl2 hd2)
        | cons a0 a2t =>
          rw [List.cons_append] at heq
          have htl : cs = a2t ++ v2 ++ b2 := (List.cons.injEq .. ▸ heq).2
          have := hmin a2t v2 b2 htl hl2 hd2
          simpa using Nat.succ_le_succ this
  · intro s
    induction s with
    | nil =>
      intro _ a v b heq hl
      exfalso
      have := congrArg List.length heq
      simp [List.length_append] at this
      omega
    | cons c cs ih =>
      intro h a v b heq hl
      rw [extract_version_from_os_version] at h
      by_cases h6 : sixDigitsAt (c :: cs) = true
      · rw [if_pos h6] at h; cases h
      · rw [if_neg h6] at h
        cases a with
        | nil =>
          rw [List.nil_append] at heq
          cases hall : v.all Char.isDigit with
          | false => rfl
          | true => exact absurd (by rw [heq]; exact hsix v b hl hall) h6
        | cons a0 a2t =>
          rw [List.cons_append] at heq
          exact ih h a2t v b (List.cons.injEq .. ▸ heq).2 hl

/-- C9, witness: the characterization applied to the first documented
example yields a six-character all-digit result. -/
theorem c9_version_extraction_witness :
    ("201811".toList).length = 6 ∧ ("201811".toList).all Char.isDigit = true := by
  have h := c9_version_extraction.1 "SONiC.20181130.101".toList "201811".toList (by decide)
  exact ⟨h.1, h.2.1⟩

theorem parse_results_events (ch : Channel) :
    (parse_exit_check_results ch).2 = [Event.sent Phase.resultsParse catCmd] := by
  unfold parse_exit_check_results
  cases ch.act catCmd <;> rfl

theorem run_bash_script_events (ch : Channel) (fn : List Char) :
    (run_bash_script ch fn).2
      = runBashTry ch fn ++ [Event.sent Phase.resultsParse catCmd] := by
  unfold run_bash_script
  rw [parse_results_events]

theorem runBashTry_all_execute (ch : Channel) (fn : List Char) :
    ∀ e ∈ runBashTry ch fn, ∃ c, e = Event.sent Phase.execute c := by
  unfold runBashTry
  cases ch.act (chmodCmd (scriptPath fn)) with
  | raise =>
    intro e he
    simp only [List.mem_singleton] at he
    exact ⟨_, he⟩
  | ok o1 =>
    cases ch.act (chmodCmd commonScriptPath) with
    | raise =>
      intro e he
      simp only [List.mem_cons, List.mem_singleton, List.not_mem_nil, or_false] at he
      rcases he with rfl | rfl <;> exact ⟨_, rfl⟩
    | ok o2 =>
      cases ch.act (rmCmd EXIT_CHECK_RESULTS_JSON) with
      | raise =>
        intro e he
        simp only [List.mem_cons, List.not_mem_nil, or_false] at he
        rcases he with rfl | rfl | rfl <;> exact ⟨_, rfl⟩
      | ok o3 =>
        intro e he
        simp only [List.mem_cons, List.not_mem_nil, or_false] at he
        rcases he with rfl | rfl | rfl | rfl <;> exact ⟨_, rfl⟩

theorem countEv_eq_zero {e : Event} :
    ∀ {tr : List Event}, (∀ x ∈ tr, x ≠ e) → countEv e tr = 0 := by
  intro tr
  induction tr with
  | nil => intro _; rfl
  | cons x xs ih =>
    intro h
    rw [countEv, if_neg (h x (List.mem_cons_self _ _)), ih]
    intro y hy
    exact h y (List.mem_cons_of_mem _ hy)

/-- C4: when the remote execution step raises (setup succeeded, the
`sudo bash` command raised, e.g. a channel timeout), `run_bash_script`
catches the exception, still issues the `sudo cat` read of the results
file, and when that read yields a PASSED report the function returns
true: the execution error does not override the retrieved verdict. -/
theorem c4_execution_error_fallthrough (ch : Channel) (fn out : List Char)
    (h1 : ∃ o, ch.act (chmodCmd (scriptPath fn)) = CmdOutcome.ok o)
    (h2 : ∃ o, ch.act (chmodCmd commonScriptPath) = CmdOutcome.ok o)
    (h3 : ∃ o, ch.act (rmCmd EXIT_CHECK_RESULTS_JSON) = CmdOutcome.ok o)
    (_hbash : ch.act (bashCmd fn) = CmdOutcome.raise)
    (hcat : ch.act catCmd = CmdOutcome.ok out)
    (hpass : (parse_exit_check_results_output out).1 = true) :
    (run_bash_script ch fn).1 = true ∧
    Event.sent Phase.execute (bashCmd fn) ∈ (run_bash_script ch fn).2 ∧
    Event.sent Phase.resultsParse catCmd ∈ (run_bash_script ch fn).2 := by
  obtain ⟨o1, h1⟩ := h1
  obtain ⟨o2, h2⟩ := h2
  obtain ⟨o3, h3⟩ := h3
  have hrun : run_bash_script ch fn = ((parse_exit_check_results_output out).1,
      [Event.sent Phase.execute (chmodCmd (scriptPath fn)),
       Event.sent Phase.execute (chmodCmd commonScriptPath),
       Event.sent Phase.execute (rmCmd EXIT_CHECK_RESULTS_JSON),
       Event.sent Phase.execute (bashCmd fn),
       Event.sent Phase.resultsParse catCmd]) := by
    unfold run_bash_script runBashTry parse_exit_check_results
    rw [h1, h2, h3, hcat]
    rfl
  rw [hrun]
  refine ⟨hpass, ?_, ?_⟩ <;> simp

/-- C4, witness: a channel whose bash command raises but whose results
file read returns a PASSED report still yields verdict true. -/
theorem c4_execution_error_fallthrough_witness :
    (run_bash_script
      ⟨fun cmd => if cmd = bashCmd "exit_check_202305.sh".toList then CmdOutcome.raise
        else if cmd = catCmd then CmdOutcome.ok "\x7b\"overall_status\": \"PASSED\"\x7d".toList
        else CmdOutcome.ok []⟩
      "exit_check_202305.sh".toList).1 = true :=
  (c4_execution_error_fallthrough _ _ "\x7b\"overall_status\": \"PASSED\"\x7d".toList
    ⟨[], by decide⟩ ⟨[], by decide⟩ ⟨[], by decide⟩
    (by decide) (by decide) (by decide)).1

/-- C5: once the execute step has been reached (handler obtained and
connected, validation and script selection succeeded, both script files
exist, the pre-transfer removals succeeded and the transfer succeeded),
then for every behaviour of the execute and results-read commands the
three cleanup removal commands are each issued exactly once, handler
disconnect happens exactly once, and the task's final verdict is
exactly the `run_bash_script` verdict — a failure of the cleanup
removal of the results file never changes it. -/
theorem c5_cleanup_always_runs (env : TaskEnv) (vk fn : List Char)
    (hg : env.getHandler = StepOutcome.ok ())
    (hc : env.connect = StepOutcome.ok ())
    (hv : env.validate = StepOutcome.ok (some vk))
    (hsel : env.scriptFor vk = some fn)
    (hf : ∃ b, env.fcmCreate = StepOutcome.ok b)
    (hse : env.scriptExists = true)
    (hce : env.commonExists = true)
    (h1 : ∃ o, env.ch.act (rmCmd (scriptPath fn)) = CmdOutcome.ok o)
    (h2 : ∃ o, env.ch.act (rmCmd commonScriptPath) = CmdOutcome.ok o)
    (hscp : env.scp = StepOutcome.ok ())
    (hfn1 : fn ≠ "exit_check_common.sh".toList)
    (hfn2 : fn ≠ "exit_check_validation_results.json".toList) :
    countEv Event.disconnect (execute_sonic_warmreboot_blocker_checker env).2 = 1 ∧
    countEv (Event.sent Phase.cleanup (rmCmd (scriptPath fn)))
      (execute_sonic_warmreboot_blocker_checker env).2 = 1 ∧
    countEv (Event.sent Phase.cleanup (rmCmd commonScriptPath))
      (execute_sonic_warmreboot_blocker_checker env).2 = 1 ∧
    countEv (Event.sent Phase.cleanup (rmCmd EXIT_CHECK_RESULTS_JSON))
      (execute_sonic_warmreboot_blocker_checker env).2 = 1 ∧
    (execute_sonic_warmreboot_blocker_checker env).1 = (run_bash_script env.ch fn).1 := by
  obtain ⟨b, hfb⟩ := hf
  obtain ⟨o1, h1⟩ := h1
  obtain ⟨o2, h2⟩ := h2
  have hcomm : commonScriptPath = scriptPath "exit_check_common.sh".toList := by decide
  have hres : EXIT_CHECK_RESULTS_JSON
      = scriptPath "exit_check_validation_results.json".toList := by decide
  have hd1 : rmCmd (scriptPath fn) ≠ rmCmd commonScriptPath := by
    intro hx
    exact hfn1 (scriptPath_inj (hcomm ▸ rmCmd_inj hx))
  have hd2 : rmCmd (scriptPath fn) ≠ rmCmd EXIT_CHECK_RESULTS_JSON := by
    intro hx
    exact hfn2 (scriptPath_inj (hres ▸ rmCmd_inj hx))
  have hd3 : rmCmd commonScriptPath ≠ rmCmd EXIT_CHECK_RESULTS_JSON := by decide
  have hcl : cleanup_script env.ch fn
      = [Event.sent Phase.cleanup (rmCmd (scriptPath fn)),
         Event.sent Phase.cleanup (rmCmd commonScriptPath),
         Event.sent Phase.cleanup (rmCmd EXIT_CHECK_RESULTS_JSON)] := by
    unfold cleanup_script
    rw [h1, h2]
  have hbody : taskBody env = ((run_bash_script env.ch fn).1,
      [Event.fcmOpen, Event.sent Phase.preTransfer (rmCmd (scriptPath fn)),
       Event.sent Phase.preTransfer (rmCmd commonScriptPath), Event.scpTransfer]
      ++ (run_bash_script env.ch fn).2 ++ cleanup_script env.ch fn
      ++ (if b then [Event.fcmClose] else [])) := by
    unfold taskBody
    simp only [hc, hv, hsel, hfb, hse, hce, h1, h2, hscp]
    simp
  have htask : execute_sonic_warmreboot_blocker_checker env
      = ((taskBody env).1, (taskBody env).2 ++ [Event.disconnect]) := by
    unfold execute_sonic_warmreboot_blocker_checker
    rw [hg]
  have hz : ∀ e, (∀ c, e ≠ Event.sent Phase.execute c) →
      countEv e (runBashTry env.ch fn) = 0 := by
    intro e hne
    apply countEv_eq_zero
    intro x hx
    obtain ⟨c, rfl⟩ := runBashTry_all_execute env.ch fn x hx
    exact fun hcontra => hne c hcontra.symm
  have hzd : countEv Event.disconnect (runBashTry env.ch fn) = 0 :=
    hz _ (fun c hcontra => Event.noConfusion hcontra)
  have hz1 : countEv (Event.sent Phase.cleanup (rmCmd (scriptPath fn)))
      (runBashTry env.ch fn) = 0 := by
    apply hz
    intro c hcontra
    injection hcontra with hphase _
    exact Phase.noConfusion hphase
  have hz2 : countEv (Event.sent Phase.cleanup (rmCmd commonScriptPath))
      (runBashTry env.ch fn) = 0 := by
    apply hz
    intro c hcontra
    injection hcontra with hphase _
    exact Phase.noConfusion hphase
  have hz3 : countEv (Event.sent Phase.cleanup (rmCmd EXIT_CHECK_RESULTS_JSON))
      (runBashTry env.ch fn) = 0 := by
    apply hz
    intro c hcontra
    injection hcontra with hphase _
    exact Phase.noConfusion hphase
  have hfci : ∀ e, e ≠ Event.fcmClose →
      countEv e (if b then [Event.fcmClose] else []) = 0 := by
    intro e he
    cases b <;> simp [countEv, Ne.symm he]
  refine ⟨?_, ?_, ?_, ?_, ?_⟩
  · rw [htask, hbody]
    simp [countEv_append, countEv, run_bash_script_events, hcl, hzd, hfci]
  · rw [htask, hbody]
    simp [countEv_append, countEv, run_bash_script_events, hcl, hz1,
      hfci, hd1, hd2, Ne.symm hd1, Ne.symm hd2]
  · rw [htask, hbody]
    simp [countEv_append, countEv, run_bash_script_events, hcl, hz2,
      hfci, hd1, hd3, Ne.symm hd1, Ne.symm hd3]
  · rw [htask, hbody]
    simp [countEv_append, countEv, run_bash_script_events, hcl, hz3,
      hfci, hd2, hd3, Ne.symm hd2, Ne.symm hd3]
  · rw [htask, hbody]

/-- C5, witness: a concrete environment that reaches the execute step. -/
theorem c5_cleanup_always_runs_witness :
    countEv Event.disconnect
      (execute_sonic_warmreboot_blocker_checker
        ⟨⟨fun _ => CmdOutcome.ok []⟩, StepOutcome.ok (), StepOutcome.ok (),
         StepOutcome.ok (some "202305".toList),
         fun _ => some "exit_check_202305.sh".toList,
         StepOutcome.ok true, true, true, StepOutcome.ok ()⟩).2 = 1 ∧
    countEv (Event.sent Phase.cleanup (rmCmd (scriptPath "exit_check_202305.sh".toList)))
      (execute_sonic_warmreboot_blocker_checker
        ⟨⟨fun _ => CmdOutcome.ok []⟩, StepOutcome.ok (), StepOutcome.ok (),
         StepOutcome.ok (some "202305".toList),
         fun _ => some "exit_check_202305.sh".toList,
         StepOutcome.ok true, true, true, StepOutcome.ok ()⟩).2 = 1 :=
  have h := c5_cleanup_always_runs
    ⟨⟨fun _ => CmdOutcome.ok []⟩, StepOutcome.ok (), StepOutcome.ok (),
     StepOutcome.ok (some "202305".toList),
     fun _ => some "exit_check_202305.sh".toList,
     StepOutcome.ok true, true, true, StepOutcome.ok ()⟩
    "202305".toList "exit_check_202305.sh".toList
    rfl rfl rfl rfl ⟨true, rfl⟩ rfl rfl ⟨[], rfl⟩ ⟨[], rfl⟩ rfl
    (by decide) (by decide)
  ⟨h.1, h.2.1⟩

end WarmCheck
